import Mathlib

/-!
Shallow embedding of the fractal viewer's viewport/gesture/iteration core.

Sources embedded here (numbers are exact rationals, the idealisation of the
JavaScript float64 arithmetic):
  * src/src/hooks/useMouseMovement.ts — calculateNewPosition, calculateNewZoom,
    the wheel handler's radius update, the pinch branch of handleTouchMove,
    and the touch-move dispatch (gesture state machine).
  * src/unnamed/part_000 — the zoom-at-point variant of the hook:
    screenToWorld, calculateZoomAtPoint and its wheel handler.
  * src/unnamed/part_002 — calculateMandelbrotIterations, screenToComplex,
    complexToScreen.
-/

set_option linter.unusedVariables false

namespace Fractals

/-- the Position type of src/src/types.ts: viewport center (x, y) and
half-extent z ("radius"). -/
structure Position where
  x : ℚ
  y : ℚ
  z : ℚ
  deriving DecidableEq, Repr

/-- an (x, y) pair, used by the source both for screen pixels and for
complex-plane points. -/
structure Point2 where
  x : ℚ
  y : ℚ
  deriving DecidableEq, Repr

/-- canvas size in pixels. -/
structure CanvasSize where
  width : ℚ
  height : ℚ
  deriving DecidableEq, Repr

/-- calculateNewPosition from src/src/hooks/useMouseMovement.ts (lines 4-17):
pan the viewport by a pointer delta; z is unchanged. -/
def calculateNewPosition (currentPosition : Position) (mouseDelta : Point2)
    (canvasSize : CanvasSize) : Position :=
  let scaleFactor := currentPosition.z / canvasSize.width * 2
  let ratio := canvasSize.width / canvasSize.height
  { x := currentPosition.x - mouseDelta.x * scaleFactor
    y := currentPosition.y + mouseDelta.y * scaleFactor * ratio
    z := currentPosition.z }

/-- calculateNewZoom from src/src/hooks/useMouseMovement.ts (lines 20-27):
scale z by (1 + scrollDelta * zoomFactor), zoomFactor defaulting to 0.1. -/
def calculateNewZoom (currentZ scrollDelta : ℚ) (zoomFactor : ℚ := 1/10) : ℚ :=
  let zoomMultiplier := 1 + scrollDelta * zoomFactor
  currentZ * zoomMultiplier

/-- Math.sign, as used by the wheel handlers on e.deltaY. -/
def mathSign (q : ℚ) : ℚ :=
  if 0 < q then 1 else if q < 0 then -1 else 0

/-- the radius update of handleWheel in src/src/hooks/useMouseMovement.ts
(lines 109-120): scrollDelta = Math.sign(e.deltaY) * 0.5, then calculateNewZoom
with the default zoomFactor. -/
def handleWheelZoom (currentZ deltaY : ℚ) : ℚ :=
  calculateNewZoom currentZ (mathSign deltaY * (1/2))

/-- the radius update of the pinch branch of handleTouchMove in
src/src/hooks/useMouseMovement.ts (lines 153-168):
distanceRatio = currentDistance / lastPinchDistance,
zoomDelta = (1 - distanceRatio) * 4, then calculateNewZoom. -/
def pinchZoomUpdate (currentZ lastPinchDistance currentDistance : ℚ) : ℚ :=
  calculateNewZoom currentZ ((1 - currentDistance / lastPinchDistance) * 4)

/-- screenToWorld from src/unnamed/part_000 (lines 40-53): screen pixel to
complex-plane point under a viewport. -/
def screenToWorld (screenPos : Point2) (position : Position)
    (canvasSize : CanvasSize) : Point2 :=
  let ratio := canvasSize.width / canvasSize.height
  let normalizedX := screenPos.x / canvasSize.width
  let normalizedY := 1 - screenPos.y / canvasSize.height
  { x := position.x - position.z + normalizedX * position.z * 2
    y := position.y - position.z / ratio + normalizedY * (position.z / ratio) * 2 }

/-- calculateZoomAtPoint from src/unnamed/part_000 (lines 56-85): zoom the
viewport by scrollDelta keeping the world point under the cursor fixed. -/
def calculateZoomAtPoint (currentPosition : Position) (cursorScreen : Point2)
    (scrollDelta : ℚ) (canvasSize : CanvasSize) : Position :=
  let worldPosBefore := screenToWorld cursorScreen currentPosition canvasSize
  let newZ := calculateNewZoom currentPosition.z scrollDelta
  let ratio := canvasSize.width / canvasSize.height
  let normalizedX := cursorScreen.x / canvasSize.width
  let normalizedY := 1 - cursorScreen.y / canvasSize.height
  { x := worldPosBefore.x - normalizedX * newZ * 2 + newZ
    y := worldPosBefore.y + newZ / ratio - normalizedY * (newZ / ratio) * 2
    z := newZ }

/-- the wheel handler of src/unnamed/part_000: scrollDelta =
Math.sign(e.deltaY) * 0.5 fed into calculateZoomAtPoint. -/
def wheelZoomAtPoint (currentPosition : Position) (cursorScreen : Point2)
    (deltaY : ℚ) (canvasSize : CanvasSize) : Position :=
  calculateZoomAtPoint currentPosition cursorScreen (mathSign deltaY * (1/2)) canvasSize

/-- the loop body of calculateMandelbrotIterations (src/unnamed/part_002,
lines 4-29): with fuel iterations remaining, break when zx^2 + zy^2 > 4,
otherwise step z and record the new value. -/
def mandelbrotLoop (cx cy : ℚ) (zx zy : ℚ) : ℕ → List Point2
  | 0 => []
  | n + 1 =>
    let zxSquared := zx * zx
    let zySquared := zy * zy
    if 4 < zxSquared + zySquared then []
    else
      let xtemp := zxSquared - zySquared + cx
      let newZy := 2 * zx * zy + cy
      ⟨xtemp, newZy⟩ :: mandelbrotLoop cx cy xtemp newZy n

/-- calculateMandelbrotIterations from src/unnamed/part_002 (lines 4-29):
the iteration path, seeded with (0, 0) and extended by the loop. -/
def calculateMandelbrotIterations (cx cy : ℚ) (maxIterations : ℕ := 1000) :
    List Point2 :=
  ⟨0, 0⟩ :: mandelbrotLoop cx cy 0 0 maxIterations

/-- the escape index observable of the same loop: the value of the loop
counter i at which the break (zx^2 + zy^2 > 4) fires, none when the loop runs
to completion without breaking. -/
def mandelbrotEscapeLoop (cx cy zx zy : ℚ) (i : ℕ) : ℕ → Option ℕ
  | 0 => none
  | n + 1 =>
    if 4 < zx * zx + zy * zy then some i
    else mandelbrotEscapeLoop cx cy (zx * zx - zy * zy + cx) (2 * zx * zy + cy) (i + 1) n

/-- escape index of the Mandelbrot loop started at z = (0, 0), counter 0. -/
def mandelbrotEscapeIndex (cx cy : ℚ) (maxIterations : ℕ := 1000) : Option ℕ :=
  mandelbrotEscapeLoop cx cy 0 0 0 maxIterations

/-- screenToComplex from src/unnamed/part_002 (lines 32-49). -/
def screenToComplex (screenX screenY canvasWidth canvasHeight : ℚ)
    (position : Position) : Point2 :=
  let ratio := canvasWidth / canvasHeight
  let min2x := position.x - position.z
  let min2y := position.y - position.z / ratio
  let max2x := position.x + position.z
  let max2y := position.y + position.z / ratio
  { x := min2x + screenX / canvasWidth * (max2x - min2x)
    y := max2y - screenY / canvasHeight * (max2y - min2y) }

/-- complexToScreen from src/unnamed/part_002 (lines 52-69). -/
def complexToScreen (cx cy canvasWidth canvasHeight : ℚ)
    (position : Position) : Point2 :=
  let ratio := canvasWidth / canvasHeight
  let min2x := position.x - position.z
  let min2y := position.y - position.z / ratio
  let max2x := position.x + position.z
  let max2y := position.y + position.z / ratio
  { x := (cx - min2x) / (max2x - min2x) * canvasWidth
    y := (max2y - cy) / (max2y - min2y) * canvasHeight }

/-- the transient gesture state of useMouseDragMovement in
src/src/hooks/useMouseMovement.ts: isDraggingRef, lastMousePos,
lastTouchDistance. -/
structure GestureState where
  isDragging : Bool
  lastMousePos : Option Point2
  lastTouchDistance : Option ℚ
  deriving DecidableEq, Repr

/-- handleTouchMove from src/src/hooks/useMouseMovement.ts (lines 150-192),
as a transition on the gesture state returning the optional new viewport it
passes to setPosition. calculateTouchDistance computes a Euclidean distance
via Math.sqrt, which has no exact counterpart on ℚ; its value enters
handleTouchMove only through the parameter dist, and every theorem below is
quantified over that parameter, so nothing depends on the abstraction. The
first branch fires only for two touches with a recorded pinch baseline — two
touches with no baseline fall through both branches and leave everything
unchanged, exactly as in the source. -/
def handleTouchMove (dist : Point2 → Point2 → ℚ) (state : GestureState)
    (touches : List Point2) (currentPosition : Position)
    (canvasSize : CanvasSize) : GestureState × Option Position :=
  match touches, state.lastTouchDistance with
  | [touch1, touch2], some lastDistance =>
    let currentDistance := dist touch1 touch2
    let distanceRatio := currentDistance / lastDistance
    let zoomDelta := (1 - distanceRatio) * 4
    ({ state with lastTouchDistance := some currentDistance },
     some { currentPosition with z := calculateNewZoom currentPosition.z zoomDelta })
  | [touch], _ =>
    match state.isDragging, state.lastMousePos with
    | true, some lastPos =>
      ({ state with lastMousePos := some touch },
       some (calculateNewPosition currentPosition
         ⟨touch.x - lastPos.x, touch.y - lastPos.y⟩ canvasSize))
    | _, _ => (state, none)
  | _, _ => (state, none)

/-- C5: for every viewport with radius > 0 and every wheel deltaY, the wheel
handler scales the radius by exactly the factor
1 + sign(deltaY) * 0.5 * 0.1, and the magnitude of deltaY is irrelevant: two
wheel events with positive deltaY (of any size) produce the same new radius. -/
theorem wheel_zoom_fixed_step (z : ℚ) (hz : 0 < z) :
    (∀ deltaY : ℚ,
      handleWheelZoom z deltaY = z * (1 + mathSign deltaY * (1/2) * (1/10))) ∧
    (∀ d1 d2 : ℚ, 0 < d1 → 0 < d2 →
      handleWheelZoom z d1 = handleWheelZoom z d2) := by
  constructor
  · intro deltaY
    unfold handleWheelZoom calculateNewZoom
    ring
  · intro d1 d2 h1 h2
    unfold handleWheelZoom mathSign
    rw [if_pos h1, if_pos h2]

/-- witness for wheel_zoom_fixed_step at z = 3. -/
theorem wheel_zoom_fixed_step_witness :
    (∀ deltaY : ℚ,
      handleWheelZoom 3 deltaY = 3 * (1 + mathSign deltaY * (1/2) * (1/10))) ∧
    (∀ d1 d2 : ℚ, 0 < d1 → 0 < d2 →
      handleWheelZoom 3 d1 = handleWheelZoom 3 d2) :=
  wheel_zoom_fixed_step 3 (by norm_num)

/-- C6: panning is additive in the pointer delta — two successive pan updates
with deltas d1 and d2 give the same viewport as one pan update with the
combined delta d1 + d2 — and a pan update never changes the radius. -/
theorem pan_linearity (pos : Position) (d1 d2 : Point2) (canvas : CanvasSize)
    (hz : 0 < pos.z) (hw : 0 < canvas.width) (hh : 0 < canvas.height) :
    calculateNewPosition (calculateNewPosition pos d1 canvas) d2 canvas =
      calculateNewPosition pos ⟨d1.x + d2.x, d1.y + d2.y⟩ canvas ∧
    (calculateNewPosition pos d1 canvas).z = pos.z := by
  unfold calculateNewPosition
  refine ⟨?_, rfl⟩
  simp only [Position.mk.injEq]
  exact ⟨by ring, by ring, trivial⟩

/-- witness for pan_linearity at a concrete viewport, deltas and canvas. -/
theorem pan_linearity_witness :
    calculateNewPosition (calculateNewPosition ⟨0, 0, 2⟩ ⟨5, -3⟩ ⟨16, 9⟩) ⟨1, 7⟩ ⟨16, 9⟩ =
      calculateNewPosition ⟨0, 0, 2⟩ ⟨5 + 1, -3 + 7⟩ ⟨16, 9⟩ ∧
    (calculateNewPosition ⟨0, 0, 2⟩ ⟨5, -3⟩ ⟨16, 9⟩).z = (⟨0, 0, 2⟩ : Position).z :=
  pan_linearity ⟨0, 0, 2⟩ ⟨5, -3⟩ ⟨1, 7⟩ ⟨16, 9⟩ (by norm_num) (by norm_num) (by norm_num)

/-- C3 counterexample: a pinch with distanceRatio = 1/2 < 1 (fingers
converging, lastPinchDistance 2, currentDistance 1) takes the radius from 1
to 6/5: the radius strictly increases, refuting the claim that it must
strictly decrease. -/
theorem pinch_direction_cex :
    pinchZoomUpdate 1 2 1 = 6/5 ∧ ¬ pinchZoomUpdate 1 2 1 < 1 := by
  unfold pinchZoomUpdate calculateNewZoom
  norm_num

/-- C3 amended: for radius > 0 and pinch baseline > 0, a pinch update with
distanceRatio = currentDistance / lastPinchDistance < 1 strictly increases
the radius, and one with distanceRatio > 1 strictly decreases it. -/
theorem pinch_direction (z lastDistance currentDistance : ℚ)
    (hz : 0 < z) (hlast : 0 < lastDistance) :
    (currentDistance / lastDistance < 1 →
      z < pinchZoomUpdate z lastDistance currentDistance) ∧
    (1 < currentDistance / lastDistance →
      pinchZoomUpdate z lastDistance currentDistance < z) := by
  unfold pinchZoomUpdate calculateNewZoom
  constructor
  · intro h
    nlinarith [mul_pos hz (by linarith : (0:ℚ) < 1 - currentDistance / lastDistance)]
  · intro h
    nlinarith [mul_pos hz (by linarith : (0:ℚ) < currentDistance / lastDistance - 1)]

/-- witness for pinch_direction at z = 1, lastDistance = 2, currentDistance = 1. -/
theorem pinch_direction_witness :
    ((1 : ℚ) / 2 < 1 → 1 < pinchZoomUpdate 1 2 1) ∧
    (1 < (1 : ℚ) / 2 → pinchZoomUpdate 1 2 1 < 1) :=
  pinch_direction 1 2 1 (by norm_num) (by norm_num)

/-- C8 counterexample: a pinch with baseline distance 1 and current distance 4
(distanceRatio 4) takes a radius of 1 to -1/5: the pinch update does not
preserve radius > 0. -/
theorem gesture_radius_positive_cex :
    pinchZoomUpdate 1 1 4 = -(1/5) ∧ ¬ 0 < pinchZoomUpdate 1 1 4 := by
  unfold pinchZoomUpdate calculateNewZoom
  norm_num

/-- C8 amended: a pan update never changes the radius (so preserves
radius > 0); a wheel zoom always keeps the radius strictly positive; a pinch
zoom keeps it strictly positive provided distanceRatio < 3.5 (at
distanceRatio ≥ 3.5 the multiplier 1 + (1 - ratio) * 0.4 is ≤ 0). -/
theorem gesture_radius_positive (pos : Position) (delta : Point2)
    (canvas : CanvasSize) (z deltaY lastDistance currentDistance : ℚ)
    (hpos : 0 < pos.z) (hz : 0 < z) (hlast : 0 < lastDistance)
    (hcur : 0 ≤ currentDistance) :
    0 < (calculateNewPosition pos delta canvas).z ∧
    0 < handleWheelZoom z deltaY ∧
    (currentDistance / lastDistance < 7/2 →
      0 < pinchZoomUpdate z lastDistance currentDistance) := by
  refine ⟨hpos, ?_, ?_⟩
  · unfold handleWheelZoom calculateNewZoom mathSign
    split <;> [skip; split] <;> nlinarith
  · intro h
    unfold pinchZoomUpdate calculateNewZoom
    nlinarith [mul_pos hz (by linarith : (0:ℚ) < 7/2 - currentDistance / lastDistance)]

/-- witness for gesture_radius_positive at concrete inputs. -/
theorem gesture_radius_positive_witness :
    0 < (calculateNewPosition ⟨0, 0, 1⟩ ⟨5, -3⟩ ⟨16, 9⟩).z ∧
    0 < handleWheelZoom 1 120 ∧
    ((2 : ℚ) / 1 < 7/2 → 0 < pinchZoomUpdate 1 1 2) :=
  gesture_radius_positive ⟨0, 0, 1⟩ ⟨5, -3⟩ ⟨16, 9⟩ 1 120 1 2
    (by norm_num) (by norm_num) (by norm_num) (by norm_num)

/-- C10: screenToWorld (used by the zoom-at-point gesture code) and
screenToComplex (used by the path overlay) compute the same point for every
screen position, viewport, and canvas with positive width and height: the two
transforms are the same function in exact arithmetic. -/
theorem screenToWorld_eq_screenToComplex (p : Point2) (pos : Position)
    (canvas : CanvasSize) (hw : 0 < canvas.width) (hh : 0 < canvas.height) :
    screenToWorld p pos canvas =
      screenToComplex p.x p.y canvas.width canvas.height pos := by
  unfold screenToWorld screenToComplex
  simp only [Point2.mk.injEq]
  exact ⟨by ring, by ring⟩

/-- witness for screenToWorld_eq_screenToComplex at a concrete input. -/
theorem screenToWorld_eq_screenToComplex_witness :
    screenToWorld ⟨3, 4⟩ ⟨-1, 2, 5⟩ ⟨16, 9⟩ =
      screenToComplex (Point2.mk 3 4).x (Point2.mk 3 4).y
        (CanvasSize.mk 16 9).width (CanvasSize.mk 16 9).height ⟨-1, 2, 5⟩ :=
  screenToWorld_eq_screenToComplex ⟨3, 4⟩ ⟨-1, 2, 5⟩ ⟨16, 9⟩ (by norm_num) (by norm_num)

/-- C1: the wheel zoom-at-point operation keeps the world point under the
cursor fixed — for any viewport with radius > 0, any canvas with positive
width and height, any cursor position and any wheel deltaY, converting the
cursor to complex coordinates under the new viewport gives exactly the same
point as under the old viewport. -/
theorem zoom_at_point_anchor_invariant (pos : Position) (cursor : Point2)
    (deltaY : ℚ) (canvas : CanvasSize) (hz : 0 < pos.z)
    (hw : 0 < canvas.width) (hh : 0 < canvas.height) :
    screenToComplex cursor.x cursor.y canvas.width canvas.height
        (wheelZoomAtPoint pos cursor deltaY canvas) =
      screenToComplex cursor.x cursor.y canvas.width canvas.height pos := by
  unfold wheelZoomAtPoint calculateZoomAtPoint screenToWorld screenToComplex
    calculateNewZoom
  simp only [Point2.mk.injEq]
  exact ⟨by ring, by ring⟩

/-- witness for zoom_at_point_anchor_invariant at a concrete input. -/
theorem zoom_at_point_anchor_invariant_witness :
    screenToComplex (Point2.mk 3 4).x (Point2.mk 3 4).y
        (CanvasSize.mk 16 9).width (CanvasSize.mk 16 9).height
        (wheelZoomAtPoint ⟨0, 0, 1⟩ ⟨3, 4⟩ 120 ⟨16, 9⟩) =
      screenToComplex (Point2.mk 3 4).x (Point2.mk 3 4).y
        (CanvasSize.mk 16 9).width (CanvasSize.mk 16 9).height ⟨0, 0, 1⟩ :=
  zoom_at_point_anchor_invariant ⟨0, 0, 1⟩ ⟨3, 4⟩ 120 ⟨16, 9⟩
    (by norm_num) (by norm_num) (by norm_num)

/-- C2: for a viewport with radius > 0, a canvas with positive width and
height, and a screen point inside the canvas bounds, complexToScreen inverts
screenToComplex exactly: the round trip returns the original screen point. -/
theorem screen_complex_round_trip (p : Point2) (pos : Position)
    (canvas : CanvasSize) (hz : 0 < pos.z) (hw : 0 < canvas.width)
    (hh : 0 < canvas.height) (hx0 : 0 ≤ p.x) (hx1 : p.x ≤ canvas.width)
    (hy0 : 0 ≤ p.y) (hy1 : p.y ≤ canvas.height) :
    complexToScreen (screenToComplex p.x p.y canvas.width canvas.height pos).x
        (screenToComplex p.x p.y canvas.width canvas.height pos).y
        canvas.width canvas.height pos = p := by
  have hzne : pos.z ≠ 0 := ne_of_gt hz
  have hwne : canvas.width ≠ 0 := ne_of_gt hw
  have hhne : canvas.height ≠ 0 := ne_of_gt hh
  have hr : canvas.width / canvas.height ≠ 0 := div_ne_zero hwne hhne
  obtain ⟨px, py⟩ := p
  unfold complexToScreen screenToComplex
  simp only [Point2.mk.injEq]
  constructor
  · rw [show pos.x + pos.z - (pos.x - pos.z) = 2 * pos.z by ring]
    field_simp
    ring
  · rw [show pos.y + pos.z / (canvas.width / canvas.height) -
        (pos.y - pos.z / (canvas.width / canvas.height)) =
        2 * (pos.z / (canvas.width / canvas.height)) by ring]
    field_simp
    ring

/-- witness for screen_complex_round_trip at a concrete input. -/
theorem screen_complex_round_trip_witness :
    complexToScreen
        (screenToComplex (Point2.mk 3 4).x (Point2.mk 3 4).y
          (CanvasSize.mk 16 9).width (CanvasSize.mk 16 9).height ⟨-1, 2, 5⟩).x
        (screenToComplex (Point2.mk 3 4).x (Point2.mk 3 4).y
          (CanvasSize.mk 16 9).width (CanvasSize.mk 16 9).height ⟨-1, 2, 5⟩).y
        (CanvasSize.mk 16 9).width (CanvasSize.mk 16 9).height ⟨-1, 2, 5⟩ =
      ⟨3, 4⟩ :=
  screen_complex_round_trip ⟨3, 4⟩ ⟨-1, 2, 5⟩ ⟨16, 9⟩ (by norm_num) (by norm_num)
    (by norm_num) (by norm_num) (by norm_num) (by norm_num) (by norm_num)

/-- one loop step when the escape test fires. -/
theorem mandelbrotLoop_succ_escape (cx cy zx zy : ℚ) (n : ℕ)
    (h : 4 < zx * zx + zy * zy) :
    mandelbrotLoop cx cy zx zy (n + 1) = [] := by
  rw [mandelbrotLoop]
  simp only [if_pos h]

/-- one loop step when the escape test does not fire. -/
theorem mandelbrotLoop_succ_cont (cx cy zx zy : ℚ) (n : ℕ)
    (h : ¬ 4 < zx * zx + zy * zy) :
    mandelbrotLoop cx cy zx zy (n + 1) =
      ⟨zx * zx - zy * zy + cx, 2 * zx * zy + cy⟩ ::
        mandelbrotLoop cx cy (zx * zx - zy * zy + cx) (2 * zx * zy + cy) n := by
  rw [mandelbrotLoop]
  simp only [if_neg h]

/-- one escape-loop step when the escape test fires. -/
theorem mandelbrotEscapeLoop_succ_escape (cx cy zx zy : ℚ) (i n : ℕ)
    (h : 4 < zx * zx + zy * zy) :
    mandelbrotEscapeLoop cx cy zx zy i (n + 1) = some i := by
  rw [mandelbrotEscapeLoop]
  simp only [if_pos h]

/-- one escape-loop step when the escape test does not fire. -/
theorem mandelbrotEscapeLoop_succ_cont (cx cy zx zy : ℚ) (i n : ℕ)
    (h : ¬ 4 < zx * zx + zy * zy) :
    mandelbrotEscapeLoop cx cy zx zy i (n + 1) =
      mandelbrotEscapeLoop cx cy (zx * zx - zy * zy + cx) (2 * zx * zy + cy)
        (i + 1) n := by
  rw [mandelbrotEscapeLoop]
  simp only [if_neg h]

/-- with c = (0, 0) and z = (0, 0) the loop never breaks and records (0, 0)
once per remaining iteration. -/
theorem mandelbrotLoop_zero (n : ℕ) :
    mandelbrotLoop 0 0 0 0 n = List.replicate n ⟨0, 0⟩ := by
  induction n with
  | zero => rfl
  | succ n ih =>
    rw [mandelbrotLoop_succ_cont 0 0 0 0 n (by norm_num),
      show (0:ℚ) * 0 - 0 * 0 + 0 = 0 by norm_num,
      show (2:ℚ) * 0 * 0 + 0 = 0 by norm_num, ih, List.replicate_succ]

/-- with c = (0, 0) and z = (0, 0) the escape loop returns none from any
counter value. -/
theorem mandelbrotEscapeLoop_zero (n : ℕ) : ∀ i : ℕ,
    mandelbrotEscapeLoop 0 0 0 0 i n = none := by
  induction n with
  | zero => intro i; rfl
  | succ n ih =>
    intro i
    rw [mandelbrotEscapeLoop_succ_cont 0 0 0 0 i n (by norm_num),
      show (0:ℚ) * 0 - 0 * 0 + 0 = 0 by norm_num,
      show (2:ℚ) * 0 * 0 + 0 = 0 by norm_num]
    exact ih (i + 1)

/-- the path for c = (2, 2) is the seed followed by the single iterate (2, 2). -/
theorem mandelbrot_path_two_two :
    calculateMandelbrotIterations 2 2 1000 = [⟨0, 0⟩, ⟨2, 2⟩] := by
  show (⟨0, 0⟩ : Point2) :: mandelbrotLoop 2 2 0 0 (999 + 1) = _
  rw [mandelbrotLoop_succ_cont 2 2 0 0 999 (by norm_num),
    show (0:ℚ) * 0 - 0 * 0 + 2 = 2 by norm_num,
    show (2:ℚ) * 0 * 0 + 2 = 2 by norm_num,
    show (999:ℕ) = 998 + 1 from rfl,
    mandelbrotLoop_succ_escape 2 2 2 2 998 (by norm_num)]

/-- the escape loop for c = (2, 2) breaks at counter value 1. -/
theorem mandelbrot_escape_two_two :
    mandelbrotEscapeIndex 2 2 1000 = some 1 := by
  show mandelbrotEscapeLoop 2 2 0 0 0 (999 + 1) = some 1
  rw [mandelbrotEscapeLoop_succ_cont 2 2 0 0 0 999 (by norm_num),
    show (0:ℚ) * 0 - 0 * 0 + 2 = 2 by norm_num,
    show (2:ℚ) * 0 * 0 + 2 = 2 by norm_num, Nat.zero_add,
    show (999:ℕ) = 998 + 1 from rfl,
    mandelbrotEscapeLoop_succ_escape 2 2 2 2 1 998 (by norm_num)]

/-- C4 counterexample: for c = (2, 2) the loop's break fires at counter value
1, not 0 — the seed (0, 0) passes the escape test and only the first computed
iterate (2, 2) fails it — and the produced path has length 2, not the length
1 that escape at index 0 would give. -/
theorem escape_time_boundedness_cex :
    mandelbrotEscapeIndex 2 2 1000 ≠ some 0 ∧
    (calculateMandelbrotIterations 2 2 1000).length ≠ 1 := by
  rw [mandelbrot_escape_two_two, mandelbrot_path_two_two]
  exact ⟨by simp, by simp⟩

/-- C4 amended: for c = (0, 0) the iteration never escapes within 1000
iterations and the path has length exactly 1001; for c = (2, 2) the iteration
escapes at index 1: the path is [(0,0), (2,2)] of length 2, the first
computed iterate already lying beyond the escape radius. -/
theorem escape_time_boundedness :
    (calculateMandelbrotIterations 0 0 1000).length = 1001 ∧
    mandelbrotEscapeIndex 0 0 1000 = none ∧
    calculateMandelbrotIterations 2 2 1000 = [⟨0, 0⟩, ⟨2, 2⟩] ∧
    mandelbrotEscapeIndex 2 2 1000 = some 1 := by
  refine ⟨?_, mandelbrotEscapeLoop_zero 1000 0, mandelbrot_path_two_two,
    mandelbrot_escape_two_two⟩
  show ((⟨0, 0⟩ : Point2) :: mandelbrotLoop 0 0 0 0 1000).length = 1001
  rw [mandelbrotLoop_zero, List.length_cons, List.length_replicate]

/-- the loop records at most one point per remaining iteration. -/
theorem mandelbrotLoop_length_le (cx cy : ℚ) (n : ℕ) : ∀ zx zy : ℚ,
    (mandelbrotLoop cx cy zx zy n).length ≤ n := by
  induction n with
  | zero => intro zx zy; exact Nat.le_refl 0
  | succ n ih =>
    intro zx zy
    rw [mandelbrotLoop]
    split
    · exact Nat.zero_le _
    · simpa using Nat.succ_le_succ (ih _ _)

/-- C7: for every input c and every maxIterations, the iteration path starts
with (0, 0) and has length between 1 and maxIterations + 1. -/
theorem iteration_path_invariant (cx cy : ℚ) (maxIterations : ℕ) :
    (calculateMandelbrotIterations cx cy maxIterations).head? = some ⟨0, 0⟩ ∧
    1 ≤ (calculateMandelbrotIterations cx cy maxIterations).length ∧
    (calculateMandelbrotIterations cx cy maxIterations).length ≤ maxIterations + 1 := by
  refine ⟨rfl, ?_, ?_⟩
  · simp [calculateMandelbrotIterations]
  · simp only [calculateMandelbrotIterations, List.length_cons]
    exact Nat.add_le_add_right (mandelbrotLoop_length_le cx cy maxIterations 0 0) 1

/-- C9 counterexample: a touch-move with two touch points arriving while no
pinch baseline is recorded leaves the baseline unrecorded — the controller
does not treat the event as a fresh pinch start, refuting the claim that the
baseline is recorded. -/
theorem touch_move_absent_baseline_cex :
    (handleTouchMove (fun _ _ => 5) ⟨false, none, none⟩ [⟨0, 0⟩, ⟨3, 4⟩]
        ⟨0, 0, 1⟩ ⟨100, 100⟩).1.lastTouchDistance = none := rfl

/-- C9 amended: a touch-move with exactly two touch points arriving while no
pinch baseline is recorded is ignored entirely — the gesture state is
unchanged (in particular no baseline is recorded; only touch-start records
one) and no viewport update is produced — rather than failing with a
null-reference error; the absent baseline is never dereferenced. This holds
for every distance function, so it does not depend on modelling Math.sqrt. -/
theorem touch_move_absent_baseline (dist : Point2 → Point2 → ℚ)
    (state : GestureState) (t1 t2 : Point2) (pos : Position)
    (canvas : CanvasSize) (h : state.lastTouchDistance = none) :
    handleTouchMove dist state [t1, t2] pos canvas = (state, none) := by
  obtain ⟨isDr, lastPos, lastDist⟩ := state
  cases lastDist with
  | none => rfl
  | some d => simp at h

/-- witness for touch_move_absent_baseline at a concrete state and event. -/
theorem touch_move_absent_baseline_witness :
    handleTouchMove (fun _ _ => 5) ⟨false, none, none⟩ [⟨0, 0⟩, ⟨3, 4⟩]
        ⟨0, 0, 1⟩ ⟨100, 100⟩ = (⟨false, none, none⟩, none) :=
  touch_move_absent_baseline (fun _ _ => 5) ⟨false, none, none⟩ ⟨0, 0⟩ ⟨3, 4⟩
    ⟨0, 0, 1⟩ ⟨100, 100⟩ rfl

end Fractals
